import Mathlib

/-!
Formal model of `src/process_pdf.py` (class `PDFOutlineExtractor`).

Lines are modelled as lists of characters (`Line := List Char`); the regular
expressions of the source are modelled by structurally equivalent decidable
functions (each doc comment records the regex and why the function matches the
same set of strings, restricted to ASCII text without embedded newlines, which
is what `text.split('\n')` produces).  The mutable field `_detected_title` is
modelled by explicit state passing.
-/

namespace AdoView

/-- A Python string: a list of characters. -/
abbrev Line := List Char

/-- ASCII whitespace: the characters stripped by Python `str.strip()` and
matched by the regex class `\s` (ASCII range). -/
def isPySpace (c : Char) : Bool :=
  decide (c = ' ' ∨ c = '\t' ∨ c = '\n' ∨ c = '\r' ∨ c = '\x0b' ∨ c = '\x0c')

/-- Python `line.strip()`: drop leading and trailing whitespace. -/
def pyStrip (l : Line) : Line :=
  ((l.dropWhile isPySpace).reverse.dropWhile isPySpace).reverse

/-- Python `text.split('\n')`. -/
def splitLines (t : Line) : List Line := t.splitOn '\n'

/-- Regex `self.num_pat = re.compile(r"^\d+(\.\d+)*[\.\s]+.+")`, used with `.match`
(anchored prefix search).  A prefix match exists iff the maximal leading digit
run is non-empty and the remainder has at least two characters, the first being
`.` or whitespace: the `(\.\d+)*` groups can always be dropped (taking the
first `.` as the `[\.\s]+` separator and everything after it as `.+`), and the
leading `\d+` must be the whole digit run because the following regex atom can
only match `.` or whitespace, never a digit. -/
def num_pat (s : Line) : Bool :=
  !(s.takeWhile Char.isDigit).isEmpty &&
    match s.dropWhile Char.isDigit with
    | c :: _ :: _ => decide (c = '.') || isPySpace c
    | _ => false

/-- Regex `self.up_pat = re.compile(r"^(?=.*[A-Z])[A-Z0-9. ]+$")`: the whole line is
built from uppercase letters, digits, periods and spaces, is non-empty, and
contains at least one uppercase letter. -/
def up_pat (s : Line) : Bool :=
  !s.isEmpty &&
    s.all (fun c => c.isUpper || c.isDigit || decide (c = '.') || decide (c = ' ')) &&
    s.any Char.isUpper

/-- Regex `self.title_pat = re.compile(r"^[A-Z][a-zA-Z0-9 ,\-\:]{4,}$")`: an
uppercase letter followed by at least four characters drawn from
letters/digits/space/comma/hyphen/colon, to the end of the line. -/
def title_pat (s : Line) : Bool :=
  match s with
  | c :: rest =>
    c.isUpper && decide (4 ≤ rest.length) &&
      rest.all (fun d => d.isAlpha || d.isDigit || decide (d = ' ' ∨ d = ',' ∨ d = '-' ∨ d = ':'))
  | [] => false

/-- The `[-\/]` separator class of the two date regexes. -/
def sepDash (c : Char) : Bool := decide (c = '-' ∨ c = '/')

/-- Noise regex `^\d{1,2}[-\/]\d{1,2}[-\/]\d{2,4}$`.  Because a digit can never
match `[-\/]` and the final `$` forces the last digit group to extend to the end
of the line, the three digit groups are exactly the maximal digit runs, so the
greedy structural scan below is equivalent to the regex. -/
def date_pat_a (s : Line) : Bool :=
  decide (1 ≤ (s.takeWhile Char.isDigit).length ∧ (s.takeWhile Char.isDigit).length ≤ 2) &&
    match s.dropWhile Char.isDigit with
    | c1 :: r1 =>
      sepDash c1 &&
        (decide (1 ≤ (r1.takeWhile Char.isDigit).length ∧ (r1.takeWhile Char.isDigit).length ≤ 2) &&
          match r1.dropWhile Char.isDigit with
          | c2 :: r2 =>
            sepDash c2 && decide (2 ≤ r2.length ∧ r2.length ≤ 4) && r2.all Char.isDigit
          | [] => false)
    | [] => false

/-- Noise regex `^\d{4}[-\/]\d{1,2}[-\/]\d{1,2}$` (same reasoning as
`date_pat_a`). -/
def date_pat_b (s : Line) : Bool :=
  decide ((s.takeWhile Char.isDigit).length = 4) &&
    match s.dropWhile Char.isDigit with
    | c1 :: r1 =>
      sepDash c1 &&
        (decide (1 ≤ (r1.takeWhile Char.isDigit).length ∧ (r1.takeWhile Char.isDigit).length ≤ 2) &&
          match r1.dropWhile Char.isDigit with
          | c2 :: r2 =>
            sepDash c2 && decide (1 ≤ r2.length ∧ r2.length ≤ 2) && r2.all Char.isDigit
          | [] => false)
    | [] => false

/-- Noise regex `^page\s+\d+$` with `re.IGNORECASE`: the whole line is `page`,
one or more whitespace characters, one or more digits.  Case-insensitivity is
modelled by lowercasing (ASCII). -/
def page_pat (s : Line) : Bool :=
  decide ((s.map Char.toLower).take 4 = "page".toList) &&
    (!(((s.map Char.toLower).drop 4).takeWhile isPySpace).isEmpty &&
      (!(((s.map Char.toLower).drop 4).dropWhile isPySpace).isEmpty &&
        (((s.map Char.toLower).drop 4).dropWhile isPySpace).all Char.isDigit))

/-- Noise regex `^copyright.*$` with `re.IGNORECASE`, used with `.match`: the
line starts (case-insensitively) with `copyright`. -/
def copyright_pat (s : Line) : Bool :=
  "copyright".toList.isPrefixOf (s.map Char.toLower)

/-- Noise regex `^\d+$`: the line is entirely digits. -/
def digits_pat (s : Line) : Bool :=
  !s.isEmpty && s.all Char.isDigit

/-- The regex class `\w` (ASCII range): letters, digits, underscore. -/
def isWordChar (c : Char) : Bool := c.isAlpha || c.isDigit || decide (c = '_')

/-- Noise regex `^[^\w\s]+$`: non-empty, no word characters, no whitespace. -/
def punct_only_pat (s : Line) : Bool :=
  !s.isEmpty && s.all (fun c => !isWordChar c && !isPySpace c)

/-- Field `self.noise_patterns`, in source order. -/
def noise_patterns : List (Line → Bool) :=
  [date_pat_a, date_pat_b, page_pat, copyright_pat, digits_pat, punct_only_pat]

/-- Method `is_noise`: strip the line; lines shorter than 3 characters are noise, and
otherwise the line is noise iff some pattern in `noise_patterns` matches. -/
def is_noise (line : Line) : Bool :=
  if (pyStrip line).length < 3 then true
  else noise_patterns.any (fun p => p (pyStrip line))

/-- A `(text, page_number)` pair as produced by the extraction backends. -/
structure PageText where
  text : Line
  page : Nat
deriving DecidableEq, Repr

/-- One entry of the output outline list. -/
structure HeadingRecord where
  level : String
  text : Line
  page : Nat
deriving DecidableEq, Repr

/-- The output artifact of `extract_outline`. -/
structure Outline where
  title : Line
  outline : List HeadingRecord
deriving DecidableEq, Repr

/-- The literal marker substring of the guard
`'. This is the content for section:' in line`. -/
def section_marker : Line := ". This is the content for section:".toList

/-- Python substring containment `needle in haystack`. -/
def contains_sub (needle : Line) : Line → Bool
  | [] => needle.isEmpty
  | c :: rest => needle.isPrefixOf (c :: rest) || contains_sub needle rest

/-- Expression `sum(1 for c in line if c.islower())` (ASCII lowercase). -/
def count_lower (line : Line) : Nat := (line.filter Char.isLower).length

/-- The comparison `count > len(line) * 0.7`, which Python evaluates in IEEE-754
double arithmetic.  `is_heading` only reaches it when `50 < len(line) ≤ 100`.
On that range the double closest to 0.7 is `3152519739159347 / 2 ^ 52 < 0.7`,
and the rounded product `n * 0.7` agrees with the exact rational `7 * n / 10`
for every `n` except `n = 90`: there `90 * 0.7` rounds to
`62.99999999999999` (mantissa `8866461766385663.4375` rounds down), so a
count of exactly 63 — exactly 70 percent — also satisfies the comparison.
For `n` equal to 60, 70, 80 and 100 the product rounds to exactly `7 * n / 10`,
and for `n` not divisible by 10 the exact threshold is at distance at least
0.1 from every integer, far above the rounding error. -/
def lowercase_excess (n count : Nat) : Bool :=
  decide (7 * n < 10 * count) || (decide (n = 90) && decide (count = 63))

/-- Guard `line.endswith(('.', ',', ';', '!', '?')) and not line.endswith('...')`. -/
def ends_badly (line : Line) : Bool :=
  (match line.getLast? with
   | some c => decide (c = '.' ∨ c = ',' ∨ c = ';' ∨ c = '!' ∨ c = '?')
   | none => false) &&
    !(decide (line.reverse.take 3 = ['.', '.', '.']))

/-- The guard `self._detected_title and line == self._detected_title`
(the `hasattr` test is always true: the field is set in `__init__`).
A `None` or empty stored title makes the guard false. -/
def title_block (detectedTitle : Option Line) (line : Line) : Bool :=
  match detectedTitle with
  | some t => !t.isEmpty && decide (line = t)
  | none => false

/-- Method `is_heading`: the guard chain of the source, in source order, followed by
the three surface patterns. -/
def is_heading (detectedTitle : Option Line) (line0 : Line) : Bool :=
  if is_noise (pyStrip line0) = true then false
  else if title_block detectedTitle (pyStrip line0) = true then false
  else if 100 < (pyStrip line0).length then false
  else if contains_sub section_marker (pyStrip line0) = true then false
  else if 50 < (pyStrip line0).length ∧
      lowercase_excess (pyStrip line0).length (count_lower (pyStrip line0)) = true then false
  else if ends_badly (pyStrip line0) = true then false
  else if num_pat (pyStrip line0) = true then true
  else if (pyStrip line0).length ≤ 100 ∧ up_pat (pyStrip line0) = true then true
  else if title_pat (pyStrip line0) = true then true
  else false

/-- The inline regex `re.match(r"^\d+\.\s+", line)` of
`determine_heading_level`: a maximal non-empty digit run, a period, then at
least one whitespace character (the leading `\d+` must be the whole digit run
because `\.` cannot match a digit). -/
def h1_num_pat (s : Line) : Bool :=
  !(s.takeWhile Char.isDigit).isEmpty &&
    match s.dropWhile Char.isDigit with
    | c1 :: c2 :: _ => decide (c1 = '.') && isPySpace c2
    | _ => false

/-- The inline regex `re.match(r"^\d+\.\d+\s+", line)` of
`determine_heading_level`: digits, period, digits, then at least one
whitespace character (both digit runs are maximal because the atom after each
of them — `\.` or `\s` — cannot match a digit). -/
def h2_num_pat (s : Line) : Bool :=
  !(s.takeWhile Char.isDigit).isEmpty &&
    match s.dropWhile Char.isDigit with
    | c1 :: r2 =>
      decide (c1 = '.') && !(r2.takeWhile Char.isDigit).isEmpty &&
        match r2.dropWhile Char.isDigit with
        | c :: _ => isPySpace c
        | [] => false
    | [] => false

/-- Method `determine_heading_level`: H1 for top-level numbered sections or long
all-caps lines, H2 for two-level numbered sections, short all-caps lines or
title-case lines, H3 otherwise. -/
def determine_heading_level (line0 : Line) : String :=
  if h1_num_pat (pyStrip line0) = true ∨
      (15 < (pyStrip line0).length ∧ up_pat (pyStrip line0) = true) then "H1"
  else if h2_num_pat (pyStrip line0) = true ∨
      ((pyStrip line0).length ≤ 15 ∧ up_pat (pyStrip line0) = true) ∨
      title_pat (pyStrip line0) = true then "H2"
  else "H3"

/-- The inner loop of `extract_headings` over the lines of one page. -/
def classify_lines (detectedTitle : Option Line) (page_num : Nat) : List Line → List HeadingRecord
  | [] => []
  | raw :: rest =>
    if is_heading detectedTitle (pyStrip raw) = true then
      { level := determine_heading_level (pyStrip raw), text := pyStrip raw, page := page_num } ::
        classify_lines detectedTitle page_num rest
    else classify_lines detectedTitle page_num rest

/-- Method `extract_headings`: classify every line of every page, in reading order,
against the stored `_detected_title`. -/
def extract_headings (detectedTitle : Option Line) : List PageText → List HeadingRecord
  | [] => []
  | p :: ps =>
    classify_lines detectedTitle p.page (splitLines p.text) ++ extract_headings detectedTitle ps

/-- Method `extract_title_from_metadata`, with the metadata title (or its absence)
supplied as input: return the stripped metadata title when it is non-empty and
longer than 2 characters, `None` otherwise. -/
def extract_title_from_metadata (metaTitle : Option Line) : Option Line :=
  match metaTitle with
  | some t =>
    if !(pyStrip t).isEmpty ∧ 2 < (pyStrip t).length then some (pyStrip t) else none
  | none => none

/-- The inner loop of `extract_title_from_content` over the lines of a page:
the first stripped line that is non-empty, longer than 3 characters and not
noise. -/
def first_title_line : List Line → Option Line
  | [] => none
  | raw :: rest =>
    if !(pyStrip raw).isEmpty ∧ 3 < (pyStrip raw).length ∧ is_noise (pyStrip raw) = false then
      some (pyStrip raw)
    else first_title_line rest

/-- The scan of `extract_title_from_content` over all pages. -/
def pages_title : List PageText → Option Line
  | [] => none
  | p :: ps =>
    match first_title_line (splitLines p.text) with
    | some t => some t
    | none => pages_title ps

/-- Method `extract_title_from_content`: first acceptable line, in page order and
line order, or the literal fallback. -/
def extract_title_from_content (pages : List PageText) : Line :=
  match pages_title pages with
  | some t => t
  | none => "Untitled Document".toList

/-- The title computation of `extract_outline`:
`title = self.extract_title_from_metadata(...); if not title: title = self.extract_title_from_content(...)`
(the metadata result is never the empty string, so falsiness is `None`). -/
def resolved_title (pages : List PageText) (metaTitle : Option Line) : Line :=
  match extract_title_from_metadata metaTitle with
  | some t => t
  | none => extract_title_from_content pages

/-- Method `extract_outline`, with the results of the two extraction backends and the
metadata title supplied as inputs and the mutable field `_detected_title`
passed as explicit state.  The fallback result is used only when the primary
result is empty; when both are empty the source raises
`ValueError("Could not extract text from PDF")`, modelled as `none` with the
state left untouched.  On success `_detected_title` is overwritten with the
resolved title before `extract_headings` runs. -/
def extract_outline_st (st0 : Option Line) (primary fallback : List PageText)
    (metaTitle : Option Line) : Option Outline × Option Line :=
  let pages := if primary.isEmpty then fallback else primary
  if pages.isEmpty then (none, st0)
  else
    let title := resolved_title pages metaTitle
    (some { title := title, outline := extract_headings (some title) pages }, some title)

/-! ## Definitions modelled from the spec wording (for refinement claims) -/

/-- The spec's duplicate-title guard read as a pass condition: the line
"is not identical to the resolved title string" (vacuously true when no title
is present). -/
def title_ok (detectedTitle : Option Line) (line : Line) : Bool :=
  match detectedTitle with
  | some t => !decide (line = t)
  | none => true

/-- Modelled from the spec: the Line Classifier contract of claim C3, read
literally — all six guards hold and at least one surface pattern matches, with
the lowercase-ratio guard as an exact "more than 70 percent" comparison.
The line is assumed already trimmed. -/
def heading_spec (detectedTitle : Option Line) (line : Line) : Bool :=
  !is_noise line &&
    title_ok detectedTitle line &&
    decide (line.length ≤ 100) &&
    !contains_sub section_marker line &&
    !(decide (50 < line.length) && decide (7 * line.length < 10 * count_lower line)) &&
    !ends_badly line &&
    (num_pat line || (decide (line.length ≤ 100) && up_pat line) || title_pat line)

/-- The same contract with the lowercase-ratio comparison amended to the
IEEE-754 double behaviour of the source (see `lowercase_excess`). -/
def heading_spec_ieee (detectedTitle : Option Line) (line : Line) : Bool :=
  !is_noise line &&
    title_ok detectedTitle line &&
    decide (line.length ≤ 100) &&
    !contains_sub section_marker line &&
    !(decide (50 < line.length) && lowercase_excess line.length (count_lower line)) &&
    !ends_badly line &&
    (num_pat line || (decide (line.length ≤ 100) && up_pat line) || title_pat line)

/-- Claim C4's pattern `^\d+\.\d+\.\d+\s` as a structural prefix match:
digits, period, digits, period, digits, then a whitespace character.  Each
digit run is maximal because the regex atom that follows it (`\.` or `\s`)
cannot match a digit. -/
def h3_num_form (s : Line) : Bool :=
  !(s.takeWhile Char.isDigit).isEmpty &&
    match s.dropWhile Char.isDigit with
    | c1 :: r2 =>
      decide (c1 = '.') && !(r2.takeWhile Char.isDigit).isEmpty &&
        match r2.dropWhile Char.isDigit with
        | c2 :: r3 =>
          decide (c2 = '.') && !(r3.takeWhile Char.isDigit).isEmpty &&
            match r3.dropWhile Char.isDigit with
            | c :: _ => isPySpace c
            | [] => false
        | [] => false
    | [] => false

/-- The claim C3 counterexample input: one uppercase letter, then 63 lowercase
letters, then 26 uppercase letters — a 90-character title-case line whose
lowercase count is exactly 70 percent of its length. -/
def ratio_line : Line := 'A' :: (List.replicate 63 'b' ++ List.replicate 26 'B')

/-- Modelled from the spec: noise rule "a numeric date of form
D12-D12-D24 with dash or slash separators" — an explicit decomposition
into three digit groups of the stated sizes. -/
def date_rule_a (s : Line) : Prop :=
  ∃ a s1 b s2 c, s = a ++ s1 :: (b ++ s2 :: c) ∧
    (∀ x ∈ a, x.isDigit) ∧ 1 ≤ a.length ∧ a.length ≤ 2 ∧ (s1 = '-' ∨ s1 = '/') ∧
    (∀ x ∈ b, x.isDigit) ∧ 1 ≤ b.length ∧ b.length ≤ 2 ∧ (s2 = '-' ∨ s2 = '/') ∧
    (∀ x ∈ c, x.isDigit) ∧ 2 ≤ c.length ∧ c.length ≤ 4

/-- Modelled from the spec: noise rule "a numeric date of form
YYYY-M12-D12 with dash or slash separators". -/
def date_rule_b (s : Line) : Prop :=
  ∃ a s1 b s2 c, s = a ++ s1 :: (b ++ s2 :: c) ∧
    (∀ x ∈ a, x.isDigit) ∧ a.length = 4 ∧ (s1 = '-' ∨ s1 = '/') ∧
    (∀ x ∈ b, x.isDigit) ∧ 1 ≤ b.length ∧ b.length ≤ 2 ∧ (s2 = '-' ∨ s2 = '/') ∧
    (∀ x ∈ c, x.isDigit) ∧ 1 ≤ c.length ∧ c.length ≤ 2

/-- Modelled from the spec: noise rule "case-insensitively `page <digits>` as
a whole line" — lowercased, the line decomposes into `page`, one or more
whitespace characters, one or more digits. -/
def page_rule (s : Line) : Prop :=
  ∃ w d, s.map Char.toLower = "page".toList ++ w ++ d ∧
    w ≠ [] ∧ (∀ x ∈ w, isPySpace x) ∧ d ≠ [] ∧ (∀ x ∈ d, x.isDigit)

/-- Modelled from the spec: noise rule "case-insensitively starting with
`copyright`". -/
def copyright_rule (s : Line) : Prop :=
  ∃ r, s.map Char.toLower = "copyright".toList ++ r

/-- Modelled from the spec: noise rule "entirely digits". -/
def digits_rule (s : Line) : Prop :=
  s ≠ [] ∧ ∀ x ∈ s, x.isDigit

/-- Modelled from the spec: noise rule "containing no word characters and no
whitespace (punctuation-only)". -/
def punct_rule (s : Line) : Prop :=
  s ≠ [] ∧ ∀ x ∈ s, isWordChar x = false ∧ isPySpace x = false

/-- Modelled from the spec: claim C6's rule list — after trimming, at least
one rule matches. -/
def noise_rules (s : Line) : Prop :=
  s.length < 3 ∨ date_rule_a s ∨ date_rule_b s ∨ page_rule s ∨ copyright_rule s ∨
    digits_rule s ∨ punct_rule s

/-- Modelled from the spec: claim C7's fallback scan over the lines of one
page — the first line that is non-empty, longer than 3 characters, and not
noise. -/
def scan_lines_spec : List Line → Option Line
  | [] => none
  | raw :: rest =>
    if pyStrip raw ≠ [] ∧ 3 < (pyStrip raw).length ∧ is_noise (pyStrip raw) = false then
      some (pyStrip raw)
    else scan_lines_spec rest

/-- Modelled from the spec: claim C7's fallback scan, pages in order. -/
def scan_pages_spec : List PageText → Option Line
  | [] => none
  | p :: ps =>
    match scan_lines_spec (splitLines p.text) with
    | some t => some t
    | none => scan_pages_spec ps

/-- Modelled from the spec: claim C7's title priority — the trimmed metadata
title when present, non-empty and longer than 2 characters; otherwise the
first acceptable content line; otherwise the literal `"Untitled Document"`. -/
def title_spec (pages : List PageText) (metaTitle : Option Line) : Line :=
  match metaTitle with
  | some t =>
    if pyStrip t ≠ [] ∧ 2 < (pyStrip t).length then pyStrip t
    else (scan_pages_spec pages).getD "Untitled Document".toList
  | none => (scan_pages_spec pages).getD "Untitled Document".toList

/-! ## Basic properties of the embedding -/

lemma digit_not_space {c : Char} (h : c.isDigit = true) : isPySpace c = false := by
  unfold isPySpace
  apply decide_eq_false
  rintro (rfl | rfl | rfl | rfl | rfl | rfl) <;> exact absurd h (by decide)

lemma digit_not_upper {c : Char} (h : c.isDigit = true) : c.isUpper = false := by
  simp only [Char.isDigit, Bool.and_eq_true, decide_eq_true_eq] at h
  have h2 : c.val.toNat ≤ 57 := h.2
  have h65 : ¬ (65 ≤ c.val) := by
    intro hc
    have hc' : (65 : UInt32).toNat ≤ c.val.toNat := hc
    norm_num at hc'
    omega
  simp [Char.isUpper, h65]

lemma head_digit_of_takeWhile_ne_nil {r : Line}
    (h : r.takeWhile Char.isDigit ≠ []) : ∃ c cs, r = c :: cs ∧ c.isDigit = true := by
  cases r with
  | nil => simp [List.takeWhile] at h
  | cons c cs =>
    refine ⟨c, cs, rfl, ?_⟩
    by_cases hc : c.isDigit = true
    · exact hc
    · simp [List.takeWhile, hc] at h

lemma pyStrip_idem (l : Line) : pyStrip (pyStrip l) = pyStrip l := by
  unfold pyStrip
  have hpre : ((l.dropWhile isPySpace).reverse.dropWhile isPySpace).reverse <+:
      l.dropWhile isPySpace := by
    apply List.reverse_suffix.mp
    rw [List.reverse_reverse]
    exact List.dropWhile_suffix _
  have hstep : (((l.dropWhile isPySpace).reverse.dropWhile isPySpace).reverse).dropWhile isPySpace
      = ((l.dropWhile isPySpace).reverse.dropWhile isPySpace).reverse := by
    cases hy : ((l.dropWhile isPySpace).reverse.dropWhile isPySpace).reverse with
    | nil => simp
    | cons c t =>
      have hc : isPySpace c = false := by
        obtain ⟨r, hr⟩ := hpre
        rw [hy] at hr
        have hh := List.head?_dropWhile_not isPySpace l
        rw [← hr] at hh
        simpa using hh
      simp [List.dropWhile_cons, hc]
  rw [hstep, List.reverse_reverse, List.dropWhile_idempotent]

lemma is_noise_pyStrip (l : Line) : is_noise (pyStrip l) = is_noise l := by
  unfold is_noise
  rw [pyStrip_idem]

lemma ne_nil_of_not_noise {s : Line} (h : is_noise s = false) : s ≠ [] := by
  intro hs
  rw [hs] at h
  have ht : is_noise ([] : Line) = true := by decide
  rw [ht] at h
  exact absurd h (by decide)

lemma title_ok_eq (t : Option Line) {s : Line} (hs : s ≠ []) :
    title_ok t s = !title_block t s := by
  cases t with
  | none => rfl
  | some x =>
    cases x with
    | nil => simp [title_ok, title_block, hs]
    | cons a y => simp [title_ok, title_block]

/-- The guard chain of `is_heading` equals the guard conjunction of the spec,
with the IEEE-754 lowercase-ratio comparison, evaluated at the stripped
line. -/
lemma is_heading_eq_ieee (t : Option Line) (l : Line) :
    is_heading t l = heading_spec_ieee t (pyStrip l) := by
  by_cases h1 : is_noise (pyStrip l) = true
  · simp [is_heading, heading_spec_ieee, h1]
  · have h1' : is_noise (pyStrip l) = false := by
      simpa using h1
    have hnil : pyStrip l ≠ [] := ne_nil_of_not_noise h1'
    unfold is_heading heading_spec_ieee
    rw [title_ok_eq t hnil]
    split_ifs with h2 h3 h4 h5 h6 h7 h8 h9 <;> simp_all <;>
      exact (Nat.lt_or_ge 50 ((pyStrip l).length)).elim (fun h => Or.inr (h5 h)) Or.inl

lemma three_le_of_not_noise {s : Line} (hs : pyStrip s = s) (h : is_noise s = false) :
    3 ≤ s.length := by
  unfold is_noise at h
  rw [hs] at h
  by_cases hl : s.length < 3
  · rw [if_pos hl] at h
    exact absurd h (by decide)
  · omega

lemma level_cases (l : Line) :
    determine_heading_level l = "H1" ∨ determine_heading_level l = "H2" ∨
      determine_heading_level l = "H3" := by
  unfold determine_heading_level
  split_ifs <;> simp

lemma mem_classify_lines {t : Option Line} {pg : Nat} {ls : List Line} {r : HeadingRecord}
    (h : r ∈ classify_lines t pg ls) :
    ∃ raw ∈ ls,
      r = ⟨determine_heading_level (pyStrip raw), pyStrip raw, pg⟩ ∧
        is_heading t (pyStrip raw) = true := by
  induction ls with
  | nil => simp [classify_lines] at h
  | cons raw rest ih =>
    rw [classify_lines] at h
    by_cases hh : is_heading t (pyStrip raw) = true
    · rw [if_pos hh] at h
      rcases List.mem_cons.mp h with h | h
      · exact ⟨raw, List.mem_cons_self _ _, h, hh⟩
      · obtain ⟨w, hw, hr, hw2⟩ := ih h
        exact ⟨w, List.mem_cons_of_mem _ hw, hr, hw2⟩
    · rw [if_neg hh] at h
      obtain ⟨w, hw, hr, hw2⟩ := ih h
      exact ⟨w, List.mem_cons_of_mem _ hw, hr, hw2⟩

lemma mem_extract_headings {t : Option Line} {pages : List PageText} {r : HeadingRecord}
    (h : r ∈ extract_headings t pages) :
    ∃ p ∈ pages, ∃ raw ∈ splitLines p.text,
      r = ⟨determine_heading_level (pyStrip raw), pyStrip raw, p.page⟩ ∧
        is_heading t (pyStrip raw) = true := by
  induction pages with
  | nil => simp [extract_headings] at h
  | cons p ps ih =>
    rw [extract_headings] at h
    rcases List.mem_append.mp h with h | h
    · obtain ⟨raw, hraw, hr, hh⟩ := mem_classify_lines h
      exact ⟨p, List.mem_cons_self _ _, raw, hraw, hr, hh⟩
    · obtain ⟨q, hq, raw, hraw, hr, hh⟩ := ih h
      exact ⟨q, List.mem_cons_of_mem _ hq, raw, hraw, hr, hh⟩

/-! ## The claims -/

/-- C5: for every line, if `is_noise` accepts the line then `is_heading`
rejects it, whatever the stored title: the noise check is the first guard of
the classifier and it is invariant under the classifier's re-stripping. -/
theorem claim5_noise_rejected (t : Option Line) (line : Line) (h : is_noise line = true) :
    is_heading t line = false := by
  rw [is_heading_eq_ieee]
  simp [heading_spec_ieee, is_noise_pyStrip, h]

/-- Witness for C5 at the spec's own scenario line `"Page 12"`. -/
theorem claim5_witness :
    is_noise ("Page 12".toList) = true ∧ is_heading none ("Page 12".toList) = false :=
  ⟨by decide, claim5_noise_rejected none _ (by decide)⟩

/-- C8: `extract_outline` fails (returns `none`, the model of the
`ValueError`) exactly when both the primary and the fallback extraction
results are empty; otherwise a full `Outline` is returned. -/
theorem claim8_extraction_failure (st metaTitle : Option Line)
    (primary fallback : List PageText) :
    (extract_outline_st st primary fallback metaTitle).1 = none ↔
      (primary = [] ∧ fallback = []) := by
  unfold extract_outline_st
  cases primary <;> cases fallback <;> simp

/-- C9: the outline produced by a run does not depend on the `_detected_title`
state left over from a previous run, and running the builder twice on the same
input yields the same outline. -/
theorem claim9_state_independent (s1 s2 metaTitle : Option Line)
    (primary fallback : List PageText) :
    (extract_outline_st s1 primary fallback metaTitle).1 =
        (extract_outline_st s2 primary fallback metaTitle).1 ∧
      (extract_outline_st ((extract_outline_st s1 primary fallback metaTitle).2)
          primary fallback metaTitle).1 =
        (extract_outline_st s1 primary fallback metaTitle).1 := by
  cases primary <;> cases fallback <;> simp [extract_outline_st]

/-- C10: every heading record produced by `extract_headings` — under any
stored title and any input pages — has trimmed text of length between 3 and
100 that does not end in sentence punctuation (except a trailing ellipsis),
and a level drawn from exactly H1/H2/H3. -/
theorem claim10_heading_record_invariants (t : Option Line) (pages : List PageText)
    (r : HeadingRecord) (h : r ∈ extract_headings t pages) :
    pyStrip r.text = r.text ∧ 3 ≤ r.text.length ∧ r.text.length ≤ 100 ∧
      ends_badly r.text = false ∧
      (r.level = "H1" ∨ r.level = "H2" ∨ r.level = "H3") := by
  obtain ⟨p, hp, raw, hraw, hr, hh⟩ := mem_extract_headings h
  subst hr
  rw [is_heading_eq_ieee, pyStrip_idem] at hh
  simp only [heading_spec_ieee, Bool.and_eq_true, Bool.not_eq_true',
    decide_eq_true_eq] at hh
  obtain ⟨⟨⟨⟨⟨⟨hnoise, -⟩, hlen⟩, -⟩, -⟩, hpunct⟩, -⟩ := hh
  exact ⟨pyStrip_idem raw, three_le_of_not_noise (pyStrip_idem raw) hnoise, hlen,
    hpunct, level_cases _⟩

/-- Witness for C10: the spec's scenario line `"1. Introduction"` on page 1
produces the record (H1, `"1. Introduction"`, 1), whose fields satisfy the
invariants. -/
theorem claim10_witness :
    (⟨"H1", "1. Introduction".toList, 1⟩ : HeadingRecord) ∈
        extract_headings none [⟨"1. Introduction".toList, 1⟩] ∧
      3 ≤ ("1. Introduction".toList).length ∧ ("1. Introduction".toList).length ≤ 100 ∧
      ends_badly ("1. Introduction".toList) = false :=
  ⟨by decide,
    (claim10_heading_record_invariants none [⟨"1. Introduction".toList, 1⟩]
        ⟨"H1", "1. Introduction".toList, 1⟩ (by decide)).2.1,
    (claim10_heading_record_invariants none [⟨"1. Introduction".toList, 1⟩]
        ⟨"H1", "1. Introduction".toList, 1⟩ (by decide)).2.2.1,
    (claim10_heading_record_invariants none [⟨"1. Introduction".toList, 1⟩]
        ⟨"H1", "1. Introduction".toList, 1⟩ (by decide)).2.2.2.1⟩

/-- C2: on every successful run of the outline builder, no heading record in
the output has text equal to the resolved title (the classifier's
duplicate-title guard). -/
theorem claim2_title_excluded (st metaTitle : Option Line) (primary fallback : List PageText)
    (o : Outline) (st' : Option Line)
    (h : extract_outline_st st primary fallback metaTitle = (some o, st'))
    (r : HeadingRecord) (hr : r ∈ o.outline) : r.text ≠ o.title := by
  unfold extract_outline_st at h
  by_cases hp : (if primary.isEmpty then fallback else primary).isEmpty
  · rw [if_pos hp] at h
    simp at h
  · rw [if_neg hp] at h
    simp only [Prod.mk.injEq, Option.some.injEq] at h
    obtain ⟨ho, -⟩ := h
    subst ho
    obtain ⟨p, hp2, raw, hraw, hrr, hh⟩ := mem_extract_headings hr
    subst hrr
    rw [is_heading_eq_ieee, pyStrip_idem] at hh
    simp only [heading_spec_ieee, title_ok, Bool.and_eq_true, Bool.not_eq_true',
      decide_eq_false_iff_not] at hh
    exact hh.1.1.1.1.1.2

/-- Witness for C2: a concrete successful run whose only heading differs from
the resolved title. -/
theorem claim2_witness :
    (⟨"H1", "1. Introduction".toList, 1⟩ : HeadingRecord).text ≠
      (Outline.mk ("Some Title Here".toList)
          [⟨"H1", "1. Introduction".toList, 1⟩]).title :=
  claim2_title_excluded none none [⟨"Some Title Here\n1. Introduction".toList, 1⟩] []
    (Outline.mk ("Some Title Here".toList) [⟨"H1", "1. Introduction".toList, 1⟩])
    (some ("Some Title Here".toList)) (by decide)
    (⟨"H1", "1. Introduction".toList, 1⟩ : HeadingRecord) (by decide)

/-- C3 counterexample: `ratio_line` is a trimmed 90-character line satisfying
every guard of the claim as written (its lowercase count, 63, is exactly — not
more than — 70 percent of its length) and matching the title-case pattern, yet
`is_heading` rejects it, because Python evaluates `63 > 90 * 0.7` with
`90 * 0.7` rounded to `62.99999999999999`. -/
theorem claim3_counterexample :
    pyStrip ratio_line = ratio_line ∧
      heading_spec none ratio_line = true ∧
      is_heading none ratio_line = false := by
  refine ⟨by decide, by decide, by decide⟩

/-- C3 amended: for every trimmed line and every stored title, `is_heading`
returns true exactly when all guards hold and some surface pattern matches,
with the lowercase-ratio guard read as Python's IEEE-754 comparison
(`lowercase_excess`) instead of an exact "more than 70 percent". -/
theorem claim3_guard_chain (t : Option Line) (line : Line) (htrim : pyStrip line = line) :
    is_heading t line = heading_spec_ieee t line := by
  have h := is_heading_eq_ieee t line
  rwa [htrim] at h

/-- Witness for C3 at the spec's scenario line `"Experimental Setup"`. -/
theorem claim3_witness :
    pyStrip ("Experimental Setup".toList) = "Experimental Setup".toList ∧
      is_heading none ("Experimental Setup".toList) =
        heading_spec_ieee none ("Experimental Setup".toList) ∧
      is_heading none ("Experimental Setup".toList) = true :=
  ⟨by decide, claim3_guard_chain none _ (by decide), by decide⟩

lemma takeWhile_ne_nil_of_not_isEmpty {r : Line} {p : Char → Bool}
    (h : (r.takeWhile p).isEmpty = false) : r.takeWhile p ≠ [] := by
  intro hc
  rw [hc] at h
  exact absurd h (by decide)

lemma h2_imp_h1_false {s : Line} (h : h2_num_pat s = true) : h1_num_pat s = false := by
  unfold h2_num_pat at h
  unfold h1_num_pat
  rw [Bool.and_eq_true] at h
  obtain ⟨hd, hm⟩ := h
  cases hr : s.dropWhile Char.isDigit with
  | nil =>
    rw [hr] at hm
    exact absurd hm (by simp)
  | cons c1 r2 =>
    rw [hr] at hm
    simp only [Bool.and_eq_true, decide_eq_true_eq, Bool.not_eq_true'] at hm
    obtain ⟨⟨hc1, hne⟩, -⟩ := hm
    obtain ⟨d, ds, hr2, hd2⟩ :=
      head_digit_of_takeWhile_ne_nil (takeWhile_ne_nil_of_not_isEmpty hne)
    rw [hr2]
    simp [digit_not_space hd2]

lemma h3_decomp {s : Line} (h : h3_num_form s = true) :
    h1_num_pat s = false ∧ h2_num_pat s = false ∧ title_pat s = false := by
  unfold h3_num_form at h
  rw [Bool.and_eq_true] at h
  obtain ⟨hd, hm⟩ := h
  obtain ⟨e, es, hs, he⟩ :=
    head_digit_of_takeWhile_ne_nil
      (takeWhile_ne_nil_of_not_isEmpty (by simpa using hd))
  have htitle : title_pat s = false := by
    rw [hs]
    simp [title_pat, digit_not_upper he]
  cases hr : s.dropWhile Char.isDigit with
  | nil =>
    rw [hr] at hm
    exact absurd hm (by simp)
  | cons c1 r2 =>
    rw [hr] at hm
    simp only [Bool.and_eq_true, decide_eq_true_eq, Bool.not_eq_true'] at hm
    obtain ⟨⟨hc1, hne2⟩, hm2⟩ := hm
    obtain ⟨d, ds, hr2, hd2⟩ :=
      head_digit_of_takeWhile_ne_nil (takeWhile_ne_nil_of_not_isEmpty hne2)
    have h1f : h1_num_pat s = false := by
      unfold h1_num_pat
      rw [hr, hr2]
      simp [digit_not_space hd2]
    have h2f : h2_num_pat s = false := by
      unfold h2_num_pat
      cases hr3 : r2.dropWhile Char.isDigit with
      | nil =>
        rw [hr3] at hm2
        exact absurd hm2 (by simp)
      | cons c2 r3 =>
        rw [hr3] at hm2
        simp only [Bool.and_eq_true, decide_eq_true_eq, Bool.not_eq_true'] at hm2
        obtain ⟨⟨hc2, -⟩, -⟩ := hm2
        have hds : isPySpace c2 = false := by
          rw [hc2]
          decide
        rw [hr]
        simp [hr3, hds]
    exact ⟨h1f, h2f, htitle⟩

/-- C1 counterexample: `"2.1 SECTION TITLE"` matches the two-level numbered
pattern yet is assigned H1 (it is also a >15-character all-caps-pattern line),
and the untrimmed `"2.1 "` matches the pattern yet is assigned H3 (stripping
removes the trailing whitespace the pattern needs). -/
theorem claim1_counterexample :
    h2_num_pat ("2.1 SECTION TITLE".toList) = true ∧
      determine_heading_level ("2.1 SECTION TITLE".toList) = "H1" ∧
      h2_num_pat ("2.1 ".toList) = true ∧
      determine_heading_level ("2.1 ".toList) = "H3" := by
  refine ⟨by decide, by decide, by decide, by decide⟩

/-- C1 amended: for every trimmed line matching the two-level numbered form
`^\d+\.\d+\s`, the assigned level is H2 — unless the line also matches the
all-caps pattern and is longer than 15 characters, in which case it is H1;
it is never H3.  (For prefix matching, `^\d+\.\d+\s` and the source's
`^\d+\.\d+\s+` accept exactly the same lines, so `h2_num_pat` models both.) -/
theorem claim1_h2_level (line : Line) (htrim : pyStrip line = line)
    (h : h2_num_pat line = true) :
    determine_heading_level line =
      if 15 < line.length ∧ up_pat line = true then "H1" else "H2" := by
  unfold determine_heading_level
  rw [htrim, h2_imp_h1_false h]
  by_cases hc : 15 < line.length ∧ up_pat line = true
  · rw [if_pos (Or.inr hc), if_pos hc]
  · rw [if_neg ?_, if_neg hc, if_pos (Or.inl h)]
    rintro (hfalse | hcc)
    · exact absurd hfalse (by simp)
    · exact hc hcc

/-- Witness for C1 at the spec's own example `"2.1 Methodology"`. -/
theorem claim1_witness : determine_heading_level ("2.1 Methodology".toList) = "H2" :=
  (claim1_h2_level _ (by decide) (by decide)).trans (by decide)

/-- C4 counterexample: `"1.1.1 DETAIL"` and `"1.1.1 DETAILED RESULTS"` are
accepted by the classifier and match `^\d+\.\d+\.\d+\s`, yet they are assigned
H2 and H1 (they also match the all-caps pattern), not H3. -/
theorem claim4_counterexample :
    is_heading none ("1.1.1 DETAIL".toList) = true ∧
      h3_num_form ("1.1.1 DETAIL".toList) = true ∧
      determine_heading_level ("1.1.1 DETAIL".toList) = "H2" ∧
      is_heading none ("1.1.1 DETAILED RESULTS".toList) = true ∧
      h3_num_form ("1.1.1 DETAILED RESULTS".toList) = true ∧
      determine_heading_level ("1.1.1 DETAILED RESULTS".toList) = "H1" := by
  refine ⟨by decide, by decide, by decide, by decide, by decide, by decide⟩

/-- C4 amended: a trimmed classifier-accepted line matching
`^\d+\.\d+\.\d+\s` is assigned H3 — unless it also matches the all-caps
pattern, in which case it is assigned H1 when longer than 15 characters and H2
otherwise.  (The three numbered sub-patterns cannot match it, and neither can
the title-case pattern, which needs a leading uppercase letter.) -/
theorem claim4_deep_level (t : Option Line) (line : Line) (htrim : pyStrip line = line)
    (_hacc : is_heading t line = true) (h : h3_num_form line = true) :
    determine_heading_level line =
      if up_pat line = true then (if 15 < line.length then "H1" else "H2") else "H3" := by
  obtain ⟨h1f, h2f, htf⟩ := h3_decomp h
  unfold determine_heading_level
  rw [htrim, h1f, h2f, htf]
  by_cases hu : up_pat line = true
  · by_cases hl : 15 < line.length
    · rw [if_pos (Or.inr ⟨hl, hu⟩), if_pos hu, if_pos hl]
    · rw [if_neg ?_, if_pos (Or.inr (Or.inl ⟨by omega, hu⟩)), if_pos hu, if_neg hl]
      rintro (hfalse | ⟨hll, -⟩)
      · exact absurd hfalse (by simp)
      · exact hl hll
  · rw [if_neg ?_, if_neg ?_, if_neg hu]
    · rintro (hfalse | hfalse | hfalse)
      · exact absurd hfalse (by simp)
      · exact hu hfalse.2
      · exact absurd hfalse (by simp)
    · rintro (hfalse | ⟨-, huu⟩)
      · exact absurd hfalse (by simp)
      · exact hu huu

/-- Witness for C4 at `"1.1.1 Detail"`, which is assigned H3. -/
theorem claim4_witness : determine_heading_level ("1.1.1 Detail".toList) = "H3" :=
  (claim4_deep_level none _ (by decide) (by decide) (by decide)).trans (by decide)

lemma first_title_line_eq (ls : List Line) : first_title_line ls = scan_lines_spec ls := by
  induction ls with
  | nil => rfl
  | cons raw rest ih =>
    rw [first_title_line, scan_lines_spec]
    split_ifs with h1 h2 <;> simp_all [List.isEmpty_iff]

lemma pages_title_eq (ps : List PageText) : pages_title ps = scan_pages_spec ps := by
  induction ps with
  | nil => rfl
  | cons p rest ih =>
    rw [pages_title, scan_pages_spec, first_title_line_eq]
    cases scan_lines_spec (splitLines p.text) <;> simp [ih]

/-- C7: the title used by `extract_outline` follows the claimed priority — the
trimmed metadata title when present, non-empty and longer than 2 characters;
otherwise the first content line (in page order, then line order) that is
non-empty, longer than 3 characters and not noise; otherwise the literal
`"Untitled Document"`. -/
theorem claim7_title_priority (pages : List PageText) (metaTitle : Option Line) :
    resolved_title pages metaTitle = title_spec pages metaTitle := by
  have hcontent : extract_title_from_content pages =
      (scan_pages_spec pages).getD "Untitled Document".toList := by
    unfold extract_title_from_content
    rw [pages_title_eq]
    cases scan_pages_spec pages <;> simp
  unfold resolved_title title_spec extract_title_from_metadata
  cases metaTitle with
  | none => exact hcontent
  | some t =>
    dsimp only
    split_ifs with h1 h2 <;> simp_all [List.isEmpty_iff]

lemma takeWhile_append_all {p : Char → Bool} {xs : List Char} (ys : List Char)
    (h : ∀ a ∈ xs, p a = true) :
    (xs ++ ys).takeWhile p = xs ++ ys.takeWhile p := by
  induction xs with
  | nil => simp
  | cons a l ih =>
    have ha : p a = true := h a (List.mem_cons_self _ _)
    simp only [List.cons_append, List.takeWhile_cons, ha, if_true]
    rw [ih (fun b hb => h b (List.mem_cons_of_mem _ hb))]

lemma dropWhile_append_all {p : Char → Bool} {xs : List Char} (ys : List Char)
    (h : ∀ a ∈ xs, p a = true) :
    (xs ++ ys).dropWhile p = ys.dropWhile p := by
  induction xs with
  | nil => simp
  | cons a l ih =>
    have ha : p a = true := h a (List.mem_cons_self _ _)
    simp only [List.cons_append, List.dropWhile_cons, ha, if_true]
    exact ih (fun b hb => h b (List.mem_cons_of_mem _ hb))

lemma takeWhile_head_false {p : Char → Bool} : ∀ {zs : List Char},
    (∀ c cs, zs = c :: cs → p c = false) → zs.takeWhile p = []
  | [], _ => rfl
  | c :: cs, h => by simp [List.takeWhile_cons, h c cs rfl]

lemma dropWhile_head_false {p : Char → Bool} : ∀ {zs : List Char},
    (∀ c cs, zs = c :: cs → p c = false) → zs.dropWhile p = zs
  | [], _ => rfl
  | c :: cs, h => by simp [List.dropWhile_cons, h c cs rfl]

lemma sep_not_digit {c : Char} (h : c = '-' ∨ c = '/') : c.isDigit = false := by
  rcases h with rfl | rfl <;> decide

lemma date_pat_a_iff (s : Line) : date_pat_a s = true ↔ date_rule_a s := by
  constructor
  · intro h
    unfold date_pat_a at h
    rw [Bool.and_eq_true, decide_eq_true_eq] at h
    obtain ⟨ha, hm⟩ := h
    cases hr : s.dropWhile Char.isDigit with
    | nil =>
      rw [hr] at hm
      exact absurd hm (by simp)
    | cons c1 r1 =>
      rw [hr] at hm
      rw [Bool.and_eq_true, Bool.and_eq_true, decide_eq_true_eq] at hm
      obtain ⟨hc1, hb, hm2⟩ := hm
      cases hr2 : r1.dropWhile Char.isDigit with
      | nil =>
        rw [hr2] at hm2
        exact absurd hm2 (by simp)
      | cons c2 r2 =>
        rw [hr2] at hm2
        simp only [Bool.and_eq_true, decide_eq_true_eq, sepDash, List.all_eq_true] at hm2
        obtain ⟨⟨hc2, hlen⟩, hdig⟩ := hm2
        refine ⟨s.takeWhile Char.isDigit, c1, r1.takeWhile Char.isDigit, c2, r2, ?_,
          fun x hx => List.mem_takeWhile_imp hx, ha.1, ha.2, ?_,
          fun x hx => List.mem_takeWhile_imp hx, hb.1, hb.2, hc2, hdig, hlen.1, hlen.2⟩
        · conv_lhs => rw [← List.takeWhile_append_dropWhile Char.isDigit s]
          rw [hr]
          congr 2
          conv_lhs => rw [← List.takeWhile_append_dropWhile Char.isDigit r1]
          rw [hr2]
        · simpa [sepDash] using hc1
  · rintro ⟨a, s1, b, s2, c, hs, ha, ha1, ha2, hs1, hb, hb1, hb2, hs2, hc, hc1, hc2⟩
    have htw : s.takeWhile Char.isDigit = a := by
      rw [hs, takeWhile_append_all _ ha, takeWhile_head_false]
      · simp
      · rintro c0 cs0 h0
        cases h0
        exact sep_not_digit hs1
    have hdw : s.dropWhile Char.isDigit = s1 :: (b ++ s2 :: c) := by
      rw [hs, dropWhile_append_all _ ha, dropWhile_head_false]
      rintro c0 cs0 h0
      cases h0
      exact sep_not_digit hs1
    have htw2 : (b ++ s2 :: c).takeWhile Char.isDigit = b := by
      rw [takeWhile_append_all _ hb, takeWhile_head_false]
      · simp
      · rintro c0 cs0 h0
        cases h0
        exact sep_not_digit hs2
    have hdw2 : (b ++ s2 :: c).dropWhile Char.isDigit = s2 :: c := by
      rw [dropWhile_append_all _ hb, dropWhile_head_false]
      rintro c0 cs0 h0
      cases h0
      exact sep_not_digit hs2
    unfold date_pat_a
    rw [htw, hdw]
    simp [htw2, hdw2, sepDash, hs1, hs2, ha1, ha2, hb1, hb2, hc1, hc2,
      List.all_eq_true]
    exact hc

lemma date_pat_b_iff (s : Line) : date_pat_b s = true ↔ date_rule_b s := by
  constructor
  · intro h
    unfold date_pat_b at h
    rw [Bool.and_eq_true, decide_eq_true_eq] at h
    obtain ⟨ha, hm⟩ := h
    cases hr : s.dropWhile Char.isDigit with
    | nil =>
      rw [hr] at hm
      exact absurd hm (by simp)
    | cons c1 r1 =>
      rw [hr] at hm
      rw [Bool.and_eq_true, Bool.and_eq_true, decide_eq_true_eq] at hm
      obtain ⟨hc1, hb, hm2⟩ := hm
      cases hr2 : r1.dropWhile Char.isDigit with
      | nil =>
        rw [hr2] at hm2
        exact absurd hm2 (by simp)
      | cons c2 r2 =>
        rw [hr2] at hm2
        simp only [Bool.and_eq_true, decide_eq_true_eq, sepDash, List.all_eq_true] at hm2
        obtain ⟨⟨hc2, hlen⟩, hdig⟩ := hm2
        refine ⟨s.takeWhile Char.isDigit, c1, r1.takeWhile Char.isDigit, c2, r2, ?_,
          fun x hx => List.mem_takeWhile_imp hx, ha, ?_,
          fun x hx => List.mem_takeWhile_imp hx, hb.1, hb.2, hc2, hdig, hlen.1, hlen.2⟩
        · conv_lhs => rw [← List.takeWhile_append_dropWhile Char.isDigit s]
          rw [hr]
          congr 2
          conv_lhs => rw [← List.takeWhile_append_dropWhile Char.isDigit r1]
          rw [hr2]
        · simpa [sepDash] using hc1
  · rintro ⟨a, s1, b, s2, c, hs, ha, ha1, hs1, hb, hb1, hb2, hs2, hc, hc1, hc2⟩
    have htw : s.takeWhile Char.isDigit = a := by
      rw [hs, takeWhile_append_all _ ha, takeWhile_head_false]
      · simp
      · rintro c0 cs0 h0
        cases h0
        exact sep_not_digit hs1
    have hdw : s.dropWhile Char.isDigit = s1 :: (b ++ s2 :: c) := by
      rw [hs, dropWhile_append_all _ ha, dropWhile_head_false]
      rintro c0 cs0 h0
      cases h0
      exact sep_not_digit hs1
    have htw2 : (b ++ s2 :: c).takeWhile Char.isDigit = b := by
      rw [takeWhile_append_all _ hb, takeWhile_head_false]
      · simp
      · rintro c0 cs0 h0
        cases h0
        exact sep_not_digit hs2
    have hdw2 : (b ++ s2 :: c).dropWhile Char.isDigit = s2 :: c := by
      rw [dropWhile_append_all _ hb, dropWhile_head_false]
      rintro c0 cs0 h0
      cases h0
      exact sep_not_digit hs2
    unfold date_pat_b
    rw [htw, hdw]
    simp [htw2, hdw2, sepDash, hs1, hs2, ha1, hb1, hb2, hc1, hc2,
      List.all_eq_true]
    exact hc

lemma ne_nil_of_isEmpty_false {l : Line} (h : l.isEmpty = false) : l ≠ [] := by
  intro hc
  rw [hc] at h
  exact absurd h (by decide)

lemma page_pat_iff (s : Line) : page_pat s = true ↔ page_rule s := by
  constructor
  · intro h
    unfold page_pat at h
    simp only [Bool.and_eq_true, decide_eq_true_eq, Bool.not_eq_true',
      List.all_eq_true] at h
    obtain ⟨hp4, hw, hd, hdig⟩ := h
    refine ⟨((s.map Char.toLower).drop 4).takeWhile isPySpace,
      ((s.map Char.toLower).drop 4).dropWhile isPySpace, ?_,
      takeWhile_ne_nil_of_not_isEmpty hw,
      fun x hx => List.mem_takeWhile_imp hx,
      ne_nil_of_isEmpty_false hd, hdig⟩
    conv_lhs => rw [← List.take_append_drop 4 (s.map Char.toLower)]
    rw [hp4, List.append_assoc]
    congr 1
    exact (List.takeWhile_append_dropWhile _ _).symm
  · rintro ⟨w, d, hLd, hw, hws, hd, hdig⟩
    have hdhead : ∀ c0 cs0, d = c0 :: cs0 → isPySpace c0 = false := by
      rintro c0 cs0 rfl
      exact digit_not_space (hdig c0 (List.mem_cons_self _ _))
    have hL4 : (s.map Char.toLower).take 4 = "page".toList := by
      rw [hLd, List.append_assoc]
      exact List.take_left' (by decide)
    have hLdrop : (s.map Char.toLower).drop 4 = w ++ d := by
      rw [hLd, List.append_assoc]
      exact List.drop_left' (by decide)
    have htw : (w ++ d).takeWhile isPySpace = w := by
      rw [takeWhile_append_all _ hws, takeWhile_head_false hdhead, List.append_nil]
    have hdw : (w ++ d).dropWhile isPySpace = d := by
      rw [dropWhile_append_all _ hws, dropWhile_head_false hdhead]
    unfold page_pat
    rw [hLdrop, htw, hdw, hL4]
    simp [List.all_eq_true, hw, hd]
    exact hdig

lemma copyright_pat_iff (s : Line) : copyright_pat s = true ↔ copyright_rule s := by
  unfold copyright_pat copyright_rule
  rw [ List.isPrefixOf_iff_prefix]
  constructor
  · rintro ⟨r, hr⟩
    exact ⟨r, hr.symm⟩
  · rintro ⟨r, hr⟩
    exact ⟨r, hr.symm⟩

lemma digits_pat_iff (s : Line) : digits_pat s = true ↔ digits_rule s := by
  unfold digits_pat digits_rule
  simp [List.all_eq_true, List.isEmpty_iff]

lemma punct_only_pat_iff (s : Line) : punct_only_pat s = true ↔ punct_rule s := by
  unfold punct_only_pat punct_rule
  simp [List.all_eq_true, List.isEmpty_iff, Bool.and_eq_true, Bool.not_eq_true']

/-- C6: `is_noise` returns true exactly when, after trimming, at least one of
the claimed rules matches — length below 3, a numeric date in either form,
a whole-line case-insensitive `page <digits>`, a case-insensitive `copyright`
prefix, all digits, or punctuation-only. -/
theorem claim6_noise_rules (line : Line) :
    is_noise line = true ↔ noise_rules (pyStrip line) := by
  unfold is_noise noise_rules
  by_cases hl : (pyStrip line).length < 3
  · simp [hl]
  · rw [if_neg hl]
    simp only [noise_patterns, List.any_cons, List.any_nil, Bool.or_eq_true,
      Bool.or_false]
    rw [date_pat_a_iff, date_pat_b_iff, page_pat_iff, copyright_pat_iff,
      digits_pat_iff, punct_only_pat_iff]
    tauto

end AdoView
